import Mathlib

/-!
Shallow embedding of the chunked-ingest and reassembly pipeline of
`streaming_transcriber` (files `chunking/views.py`, `chunking/models.py`,
`chunking/s3_handler_hybrid.py`).

The stateful Django views are modelled as pure state-transition functions on an
explicit system state (the `ChunkedConversation` row, the `AudioChunk` table for
that conversation, and the observable effects on the S3 backend).  Storage calls
that may fail at the backend are driven by an explicit environment of boolean
outcomes.  Byte strings are lists of naturals; S3 keys, upload ids and etags are
opaque naturals.
-/

namespace StreamingTranscriber

/-- Raw byte strings are modelled as lists of naturals. -/
abbrev Bytes := List Nat

/-- One row of the `AudioChunk` table (`chunking/models.py`), restricted to the
fields the ingest pipeline reads or writes. -/
structure ChunkRec where
  chunk_number : Nat
  start_time_seconds : Int
  duration_seconds : Int
deriving Repr, DecidableEq

/-- One row of the `ChunkedConversation` table (`chunking/models.py`),
restricted to the fields the ingest pipeline reads or writes.  `has_title`
abstracts whether the `title` char field is non-blank. -/
structure Conversation where
  recorded_by : Nat
  received_chunks : List Nat
  chunk_count : Nat
  total_duration_seconds : Int
  multipart_upload_id : Option Nat
  multipart_parts : List (Nat × Nat)
  chunks_folder_set : Bool
  final_audio_url : Option Nat
  is_chunks_complete : Bool
  is_final_uploaded : Bool
  has_title : Bool
deriving Repr, DecidableEq

/-- Observable state of the S3 backend, as seen through the calls issued by
`chunking/s3_handler_hybrid.py`: the pool of open multipart uploads, the
per-chunk objects keyed by chunk number, the final object, and call counters
for the effects the claims talk about. -/
structure S3 where
  next_upload_id : Nat
  open_uploads : List Nat
  created_uploads : Nat
  chunk_objects : List (Nat × Bytes)
  part_copies : Nat
  concat_puts : Nat
  completed_multiparts : Nat
  final_object : Option Bytes
deriving Repr, DecidableEq

/-- Full system state for one conversation id: the conversation row (if it
exists), its `AudioChunk` rows in insertion order, and the S3 backend. -/
structure SysState where
  conv : Option Conversation
  chunks : List ChunkRec
  s3 : S3
deriving Repr, DecidableEq

/-- One parsed ingest request (headers and body of `POST /chunking/chunk/`),
after token authentication resolved the calling user. -/
structure Request where
  user : Nat
  chunk_number : Nat
  chunk_start_time : Int
  chunk_duration : Int
  is_final : Bool
  body : Bytes
deriving Repr, DecidableEq

/-- Outcomes of the storage calls a single ingest request can issue, making
backend failures explicit. -/
structure Env where
  start_ok : Bool
  put_ok : Bool
  copy_ok : Bool
  concat_ok : Bool
  mp_ok : Bool
deriving Repr, DecidableEq

/-- The environment in which every storage call succeeds. -/
def envOK : Env :=
  { start_ok := true, put_ok := true, copy_ok := true, concat_ok := true, mp_ok := true }

/-- Error conditions distinguished by the view code (by status and message). -/
inductive ErrCode where
  | noData
  | startFailed
  | noMultipart
  | uploadFailed
  | finalizeFailed
  | notFound
  | noFinalUrl
  | fileMissing
deriving Repr, DecidableEq

/-- Success messages distinguished by the `upload_chunk` responses. -/
inductive Msg where
  | alreadyReceived
  | uploaded
  | complete
deriving Repr, DecidableEq

/-- JSON responses of the modelled endpoints. -/
inductive Resp where
  | ok (chunk_number total_received : Nat) (is_complete : Bool) (msg : Msg)
  | fin (is_final_uploaded transcription_started : Bool)
  | err (status : Nat) (code : ErrCode)
deriving Repr, DecidableEq

/-- Size threshold selecting the reassembly strategy (`views.py`:
`SIZE_THRESHOLD = 10 * 1024 * 1024`). -/
def SIZE_THRESHOLD : Nat := 10 * 1024 * 1024

/-- Minimum multipart part size (`s3_handler_hybrid.py`:
`MIN_PART_SIZE = 5 * 1024 * 1024`). -/
def MIN_PART_SIZE : Nat := 5 * 1024 * 1024

/-- Per-chunk size estimate used for non-current chunks at finalization
(`views.py`: `total_bytes += 900000`). -/
def AVG_CHUNK_ESTIMATE : Nat := 900000

/-- Opaque key of the final per-conversation object
(`conversations/<user>/<id>/complete.flac`). -/
def FINAL_KEY : Nat := 1

/-- Fresh conversation row created by `get_or_create` defaults. -/
def fresh_conversation (user : Nat) : Conversation :=
  { recorded_by := user
    received_chunks := []
    chunk_count := 0
    total_duration_seconds := 0
    multipart_upload_id := none
    multipart_parts := []
    chunks_folder_set := false
    final_audio_url := none
    is_chunks_complete := false
    is_final_uploaded := false
    has_title := false }

/-- Server-side start-time validation (`views.py` lines 1006-1011): any
client-supplied start time that differs from `chunk_number * 30` is replaced
by the calculated value. -/
def norm_start (req : Request) : Int :=
  let expected : Int := (req.chunk_number : Int) * 30
  if req.chunk_start_time ≠ expected then expected else req.chunk_start_time

/-- Effect of `abort_multipart_upload` (`s3_handler_hybrid.py` lines 189-207)
on the backend: the upload id is no longer open.  The session row is not
touched by this call. -/
def abort_multipart_upload (s3 : S3) (uid : Nat) : S3 :=
  { s3 with open_uploads := s3.open_uploads.filter (fun x => x != uid) }

/-- Store a per-chunk object (`put_object` in `upload_chunk_hybrid`). -/
def put_chunk_object (objs : List (Nat × Bytes)) (k : Nat) (b : Bytes) :
    List (Nat × Bytes) :=
  (objs.filter (fun p => p.1 != k)) ++ [(k, b)]

/-- Read a per-chunk object back (`get_object`); absent objects read as empty. -/
def get_object (s3 : S3) (k : Nat) : Bytes :=
  (List.lookup k s3.chunk_objects).getD []

/-- Insertion step of the `received_chunks.sort()` model. -/
def insert_nat (n : Nat) : List Nat → List Nat
  | [] => [n]
  | m :: ms => if n ≤ m then n :: m :: ms else m :: insert_nat n ms

/-- Model of Python `list.sort()` on the received-chunk index list. -/
def sort_nats : List Nat → List Nat
  | [] => []
  | n :: ns => insert_nat n (sort_nats ns)

/-- Insertion step of the `order_by(chunk_number)` model. -/
def insert_chunk (c : ChunkRec) : List ChunkRec → List ChunkRec
  | [] => [c]
  | d :: ds =>
    if c.chunk_number ≤ d.chunk_number then c :: d :: ds else d :: insert_chunk c ds

/-- Model of `AudioChunk.objects.filter(...).order_by(chunk_number)`. -/
def sort_chunks : List ChunkRec → List ChunkRec
  | [] => []
  | c :: cs => insert_chunk c (sort_chunks cs)

/-- Total-size computation of the final-chunk branch (`views.py` lines
1140-1148): the chunk being delivered contributes its raw body length, every
other chunk contributes the flat 900000-byte estimate. -/
def compute_total_bytes (ordered : List ChunkRec) (cur : Nat) (bodyLen : Nat) : Nat :=
  ordered.foldl
    (fun acc c => acc + (if c.chunk_number = cur then bodyLen else AVG_CHUNK_ESTIMATE)) 0

/-- Definition following the spec-side wording only — compute `totalBytes` as
the sum of the persisted chunk sizes — used to compare the source computation
against the specified one. -/
def spec_total_bytes (s3 : S3) (ordered : List ChunkRec) : Nat :=
  (ordered.map (fun c => (get_object s3 c.chunk_number).length)).sum

/-- Data produced by `concatenate_and_upload_small_conversation`
(`s3_handler_hybrid.py` lines 210-269): each chunk object is fetched in list
order and the raw bytes are concatenated. -/
def concatenate_chunks (s3 : S3) (ordered : List ChunkRec) : Bytes :=
  (ordered.map (fun c => get_object s3 c.chunk_number)).flatten

/-- A chunk object as seen by the retroactive-multipart batcher: its key and
content (`head_object` size is the content length). -/
structure SChunk where
  key : Nat
  content : Bytes
deriving Repr, DecidableEq

/-- How a multipart part was produced: server-side copy of a single chunk, or
download-concatenate-upload of a multi-chunk batch. -/
inductive PartKind where
  | copy
  | upload
deriving Repr, DecidableEq

/-- One part produced by the retroactive-multipart batcher. -/
structure MPart where
  part_number : Nat
  kind : PartKind
  src : List SChunk
deriving Repr, DecidableEq

/-- The bytes a part contributes to the completed object. -/
def part_data (p : MPart) : Bytes := (p.src.map SChunk.content).flatten

/-- The accumulated size of a part's batch (sum of `head_object` sizes). -/
def part_size (p : MPart) : Nat := (p.src.map (fun c => c.content.length)).sum

/-- Batching walk of `build_multipart_from_chunks` (`s3_handler_hybrid.py`
lines 326-402): accumulate chunks into the current batch; flush the batch as a
part exactly when the accumulated size reaches `m` or the last chunk is
reached; a one-chunk batch becomes an `upload_part_copy` part, a multi-chunk
batch is downloaded, concatenated and uploaded with `upload_part`. -/
def build_go (m : Nat) : List SChunk → List SChunk → Nat → Nat → List MPart
  | [], _batch, _size, _pn => []
  | c :: rest, batch, size, pn =>
    let batch2 := batch ++ [c]
    let size2 := size + c.content.length
    if m ≤ size2 ∨ rest = [] then
      { part_number := pn
        kind := if batch2.length = 1 then PartKind.copy else PartKind.upload
        src := batch2 } :: build_go m rest [] 0 (pn + 1)
    else
      build_go m rest batch2 size2 pn

/-- Parts produced by `build_multipart_from_chunks` for a list of chunk
objects in index order (part numbers start at 1). -/
def build_multipart_from_chunks (m : Nat) (cs : List SChunk) : List MPart :=
  build_go m cs [] 0 1

/-- Content of the object assembled by completing the multipart upload with
the produced parts in part-number order. -/
def join_parts (ps : List MPart) : Bytes := (ps.map part_data).flatten

/-- The chunk objects of the ordered chunk rows, as handed to the batcher. -/
def chunk_objects_in_order (s3 : S3) (ordered : List ChunkRec) : List SChunk :=
  ordered.map (fun c => { key := c.chunk_number, content := get_object s3 c.chunk_number })

/-- Tail of the final-chunk branch (`views.py` lines 1203-1245): set the
completion flags, the final URL and (if blank) the title, and answer with the
complete response. -/
def finish_finalize (st : SysState) (req : Request) (conv : Conversation)
    (rc : List Nat) : Resp × SysState :=
  let conv2 := { conv with
    final_audio_url := some FINAL_KEY
    is_chunks_complete := true
    is_final_uploaded := true
    has_title := true }
  (Resp.ok req.chunk_number rc.length true Msg.complete, { st with conv := some conv2 })

/-- Final-chunk branch of `upload_chunk` (`views.py` lines 1129-1245): order
the chunk rows, estimate the total size, abort the optimistic multipart
upload, then reassemble by concatenation below the threshold and by a fresh
retroactive multipart upload at or above it. -/
def final_branch (env : Env) (st : SysState) (req : Request) (conv : Conversation)
    (uid : Nat) (rc : List Nat) : Resp × SysState :=
  let ordered := sort_chunks st.chunks
  let tb := compute_total_bytes ordered req.chunk_number req.body.length
  let st1 :=
    if conv.multipart_upload_id.isSome
    then { st with s3 := abort_multipart_upload st.s3 uid }
    else st
  if tb < SIZE_THRESHOLD then
    if env.concat_ok then
      let st2 := { st1 with s3 := { st1.s3 with
        final_object := some (concatenate_chunks st1.s3 ordered)
        concat_puts := st1.s3.concat_puts + 1 } }
      finish_finalize st2 req conv rc
    else (Resp.err 500 ErrCode.finalizeFailed, st1)
  else
    if env.mp_ok then
      let parts := build_multipart_from_chunks MIN_PART_SIZE
        (chunk_objects_in_order st1.s3 ordered)
      let st2 := { st1 with s3 := { st1.s3 with
        final_object := some (join_parts parts)
        completed_multiparts := st1.s3.completed_multiparts + 1
        created_uploads := st1.s3.created_uploads + 1 } }
      finish_finalize st2 req conv rc
    else (Resp.err 500 ErrCode.finalizeFailed, st1)

/-- `upload_chunk` from the idempotency check on (`views.py` lines 1046-1277):
duplicate detection, the sequencing check on the multipart handle, the hybrid
upload of the chunk object and its part copy (with abort on failure), record
creation, session bookkeeping, and the final-chunk branch. -/
def after_start (env : Env) (st : SysState) (req : Request) (conv : Conversation)
    (cst : Int) : Resp × SysState :=
  if st.chunks.any (fun r => r.chunk_number == req.chunk_number) then
    (Resp.ok req.chunk_number conv.received_chunks.length conv.is_chunks_complete
      Msg.alreadyReceived, st)
  else
    match conv.multipart_upload_id with
    | none => (Resp.err 400 ErrCode.noMultipart, st)
    | some uid =>
      if env.put_ok then
        let stP := { st with s3 := { st.s3 with
          chunk_objects := put_chunk_object st.s3.chunk_objects req.chunk_number req.body } }
        if env.copy_ok then
          let pn := req.chunk_number + 1
          let conv1 := { conv with
            multipart_parts := conv.multipart_parts ++ [(pn, pn)]
            chunks_folder_set := true }
          let stC := { stP with
            conv := some conv1
            s3 := { stP.s3 with part_copies := stP.s3.part_copies + 1 } }
          let rec1 : ChunkRec :=
            { chunk_number := req.chunk_number
              start_time_seconds := cst
              duration_seconds := req.chunk_duration }
          let chunks1 := stC.chunks ++ [rec1]
          let rc1 :=
            if req.chunk_number ∈ conv1.received_chunks
            then conv1.received_chunks
            else sort_nats (conv1.received_chunks ++ [req.chunk_number])
          let conv2 := { conv1 with
            received_chunks := rc1
            chunk_count := rc1.length
            total_duration_seconds := cst + req.chunk_duration }
          let stD := { stC with conv := some conv2, chunks := chunks1 }
          if req.is_final then final_branch env stD req conv2 uid rc1
          else (Resp.ok req.chunk_number rc1.length false Msg.uploaded, stD)
        else
          (Resp.err 500 ErrCode.uploadFailed,
            { stP with s3 := abort_multipart_upload stP.s3 uid })
      else
        (Resp.err 500 ErrCode.uploadFailed,
          { st with s3 := abort_multipart_upload st.s3 uid })

/-- The ingest endpoint `upload_chunk` (`views.py` lines 967-1277), after
authentication and header parsing: body check, start-time validation,
`get_or_create` of the conversation, the optimistic multipart creation on every
chunk-0 delivery, then the rest of the call. -/
def upload_chunk (env : Env) (st : SysState) (req : Request) : Resp × SysState :=
  if req.body = [] then (Resp.err 400 ErrCode.noData, st)
  else
    let cst := norm_start req
    let conv0 :=
      match st.conv with
      | some c => c
      | none => fresh_conversation req.user
    let st1 := { st with conv := some conv0 }
    if req.chunk_number = 0 then
      if env.start_ok then
        let uid := st1.s3.next_upload_id
        let conv1 := { conv0 with
          multipart_upload_id := some uid
          final_audio_url := some FINAL_KEY
          multipart_parts := [] }
        let st2 := { st1 with
          conv := some conv1
          s3 := { st1.s3 with
            next_upload_id := uid + 1
            open_uploads := uid :: st1.s3.open_uploads
            created_uploads := st1.s3.created_uploads + 1 } }
        after_start env st2 req conv1 cst
      else (Resp.err 500 ErrCode.startFailed, st1)
    else after_start env st1 req conv0 cst

/-- Backend outcome for the finalize endpoint. -/
structure FinalizeEnv where
  file_exists : Bool
deriving Repr, DecidableEq

/-- The endpoint `finalize_conversation` (`views.py` lines 185-297): look the
conversation up by id and owner, require a final audio URL, verify the object
exists, then mark the final upload done and dispatch transcription. -/
def finalize_conversation (fenv : FinalizeEnv) (st : SysState) (user : Nat) :
    Resp × SysState :=
  match st.conv with
  | none => (Resp.err 404 ErrCode.notFound, st)
  | some c =>
    if c.recorded_by = user then
      match c.final_audio_url with
      | none => (Resp.err 400 ErrCode.noFinalUrl, st)
      | some _ =>
        if fenv.file_exists then
          let c2 := { c with is_final_uploaded := true, has_title := true }
          (Resp.fin true true, { st with conv := some c2 })
        else (Resp.err 404 ErrCode.fileMissing, st)
    else (Resp.err 404 ErrCode.notFound, st)

/-! Concrete fixtures used by the witnesses and counterexamples. -/

/-- An empty S3 backend. -/
def s3_0 : S3 :=
  { next_upload_id := 0, open_uploads := [], created_uploads := 0
    chunk_objects := [], part_copies := 0, concat_puts := 0
    completed_multiparts := 0, final_object := none }

/-- A conversation row as it stands after chunk 0 was ingested for user 1. -/
def conv_1 : Conversation :=
  { recorded_by := 1
    received_chunks := [0]
    chunk_count := 1
    total_duration_seconds := 30
    multipart_upload_id := some 0
    multipart_parts := [(1, 1)]
    chunks_folder_set := true
    final_audio_url := some FINAL_KEY
    is_chunks_complete := false
    is_final_uploaded := false
    has_title := false }

/-- System state after chunk 0 (content `[7]`) was ingested for user 1. -/
def st_1 : SysState :=
  { conv := some conv_1
    chunks := [{ chunk_number := 0, start_time_seconds := 0, duration_seconds := 30 }]
    s3 := { s3_0 with
      next_upload_id := 1, open_uploads := [0], created_uploads := 1
      chunk_objects := [(0, [7])], part_copies := 1 } }

/-! Helper lemmas about the sorting models. -/

/-- Predicate: the list of chunk rows is ordered by chunk index. -/
def sorted_by_index (l : List ChunkRec) : Prop :=
  List.Pairwise (fun a b => a.chunk_number ≤ b.chunk_number) l

lemma insert_nat_perm (n : Nat) (l : List Nat) :
    List.Perm (insert_nat n l) (n :: l) := by
  induction l with
  | nil => simp [insert_nat]
  | cons m ms ih =>
    unfold insert_nat
    by_cases h : n ≤ m
    · simp [h]
    · simp only [if_neg h]
      exact (ih.cons m).trans (List.Perm.swap n m ms)

lemma sort_nats_perm (l : List Nat) : List.Perm (sort_nats l) l := by
  induction l with
  | nil => simp [sort_nats]
  | cons n ns ih =>
    exact (insert_nat_perm n (sort_nats ns)).trans (ih.cons n)

lemma mem_sort_nats {n : Nat} {l : List Nat} : n ∈ sort_nats l ↔ n ∈ l :=
  (sort_nats_perm l).mem_iff

lemma insert_chunk_perm (c : ChunkRec) (l : List ChunkRec) :
    List.Perm (insert_chunk c l) (c :: l) := by
  induction l with
  | nil => simp [insert_chunk]
  | cons d ds ih =>
    unfold insert_chunk
    by_cases h : c.chunk_number ≤ d.chunk_number
    · simp [h]
    · simp only [if_neg h]
      exact (ih.cons d).trans (List.Perm.swap c d ds)

lemma sort_chunks_perm (l : List ChunkRec) : List.Perm (sort_chunks l) l := by
  induction l with
  | nil => simp [sort_chunks]
  | cons c cs ih =>
    exact (insert_chunk_perm c (sort_chunks cs)).trans (ih.cons c)

lemma insert_chunk_sorted (c : ChunkRec) (l : List ChunkRec)
    (h : sorted_by_index l) : sorted_by_index (insert_chunk c l) := by
  induction l with
  | nil => simp [insert_chunk, sorted_by_index]
  | cons d ds ih =>
    unfold insert_chunk
    rcases h with _ | ⟨hd, hds⟩
    by_cases hle : c.chunk_number ≤ d.chunk_number
    · simp only [if_pos hle]
      refine List.Pairwise.cons ?_ (List.Pairwise.cons hd hds)
      intro x hx
      rcases List.mem_cons.mp hx with rfl | hx
      · exact hle
      · exact le_trans hle (hd x hx)
    · simp only [if_neg hle]
      refine List.Pairwise.cons ?_ (ih hds)
      intro x hx
      rcases List.mem_cons.mp ((insert_chunk_perm c ds).mem_iff.mp hx) with rfl | hx
      · exact Nat.le_of_lt (Nat.lt_of_not_le hle)
      · exact hd x hx

lemma sort_chunks_sorted (l : List ChunkRec) : sorted_by_index (sort_chunks l) := by
  induction l with
  | nil => simp [sort_chunks, sorted_by_index]
  | cons c cs ih => exact insert_chunk_sorted c (sort_chunks cs) ih

/-! Helper lemmas about the retroactive-multipart batching walk. -/

/-- Accumulated size of a batch (the sum the walk keeps in `current_batch_size`). -/
def sizes_sum (l : List SChunk) : Nat := (l.map (fun c => c.content.length)).sum

lemma build_go_ne_nil (m : Nat) :
    ∀ (cs batch : List SChunk) (size pn : Nat), cs ≠ [] →
      build_go m cs batch size pn ≠ [] := by
  intro cs
  induction cs with
  | nil => intro batch size pn h; exact absurd rfl h
  | cons c rest ih =>
    intro batch size pn _
    unfold build_go
    by_cases hf : m ≤ size + c.content.length ∨ rest = []
    · simp [hf]
    · simp only [if_neg hf]
      push_neg at hf
      exact ih _ _ _ hf.2

lemma build_go_numbers (m : Nat) :
    ∀ (cs batch : List SChunk) (size pn : Nat),
      (build_go m cs batch size pn).map MPart.part_number =
        List.range' pn (build_go m cs batch size pn).length := by
  intro cs
  induction cs with
  | nil => intro batch size pn; simp [build_go]
  | cons c rest ih =>
    intro batch size pn
    unfold build_go
    by_cases hf : m ≤ size + c.content.length ∨ rest = []
    · simp only [if_pos hf, List.map_cons, List.length_cons, List.range'_succ]
      exact congrArg (List.cons pn) (ih [] 0 (pn + 1))
    · simp only [if_neg hf]
      exact ih _ _ _

lemma build_go_src_flatten (m : Nat) :
    ∀ (cs batch : List SChunk) (size pn : Nat), cs ≠ [] →
      ((build_go m cs batch size pn).map MPart.src).flatten = batch ++ cs := by
  intro cs
  induction cs with
  | nil => intro batch size pn h; exact absurd rfl h
  | cons c rest ih =>
    intro batch size pn _
    unfold build_go
    by_cases hf : m ≤ size + c.content.length ∨ rest = []
    · simp only [if_pos hf, List.map_cons, List.flatten_cons]
      by_cases hr : rest = []
      · subst hr; simp [build_go]
      · rw [ih [] 0 (pn + 1) hr]
        simp
    · simp only [if_neg hf]
      push_neg at hf
      rw [ih _ _ _ hf.2]
      simp

lemma build_go_min_size (m : Nat) :
    ∀ (cs batch : List SChunk) (size pn : Nat), size = sizes_sum batch →
      ∀ p ∈ (build_go m cs batch size pn).dropLast, m ≤ part_size p := by
  intro cs
  induction cs with
  | nil => intro batch size pn _ p hp; simp [build_go] at hp
  | cons c rest ih =>
    intro batch size pn hsz p hp
    rw [build_go] at hp
    by_cases hf : m ≤ size + c.content.length ∨ rest = []
    · simp only [if_pos hf] at hp
      by_cases hr : rest = []
      · subst hr
        simp [build_go] at hp
      · rw [List.dropLast_cons_of_ne_nil (build_go_ne_nil m rest [] 0 (pn + 1) hr)] at hp
        rcases List.mem_cons.mp hp with rfl | hp
        · have hm : m ≤ size + c.content.length := by
            rcases hf with hf | hf
            · exact hf
            · exact absurd hf hr
          simp only [part_size, sizes_sum] at *
          simpa [hsz] using hm
        · exact ih [] 0 (pn + 1) rfl p hp
    · simp only [if_neg hf] at hp
      push_neg at hf
      refine ih _ _ _ ?_ p hp
      simp [sizes_sum, hsz]

lemma build_go_kind (m : Nat) :
    ∀ (cs batch : List SChunk) (size pn : Nat),
      ∀ p ∈ build_go m cs batch size pn,
        p.src ≠ [] ∧ (p.kind = PartKind.copy ↔ p.src.length = 1) := by
  intro cs
  induction cs with
  | nil => intro batch size pn p hp; simp [build_go] at hp
  | cons c rest ih =>
    intro batch size pn p hp
    rw [build_go] at hp
    by_cases hf : m ≤ size + c.content.length ∨ rest = []
    · simp only [if_pos hf, List.mem_cons] at hp
      rcases hp with rfl | hp
      · constructor
        · simp
        · by_cases h1 : (batch ++ [c]).length = 1
          · simp [h1]
          · simp [h1]
      · exact ih [] 0 (pn + 1) p hp
    · simp only [if_neg hf] at hp
      exact ih _ _ _ p hp

lemma build_go_greedy (m : Nat) :
    ∀ (cs batch : List SChunk) (size pn : Nat),
      size = sizes_sum batch → size < m →
      ∀ p ∈ build_go m cs batch size pn, sizes_sum p.src.dropLast < m := by
  intro cs
  induction cs with
  | nil => intro batch size pn _ _ p hp; simp [build_go] at hp
  | cons c rest ih =>
    intro batch size pn hsz hlt p hp
    rw [build_go] at hp
    by_cases hf : m ≤ size + c.content.length ∨ rest = []
    · simp only [if_pos hf, List.mem_cons] at hp
      rcases hp with rfl | hp
      · simp only [List.dropLast_concat]
        omega
      · exact ih [] 0 (pn + 1) rfl (by omega) p hp
    · simp only [if_neg hf] at hp
      push_neg at hf
      refine ih _ _ _ ?_ hf.1 p hp
      simp [sizes_sum, hsz]

lemma join_parts_eq (ps : List MPart) :
    join_parts ps = (((ps.map MPart.src).flatten).map SChunk.content).flatten := by
  simp only [join_parts, List.map_flatten, List.flatten_flatten,
    Function.comp_def, List.map_map]
  rfl

lemma compute_total_bytes_foldl (cur blen : Nat) :
    ∀ (l : List ChunkRec) (a : Nat),
      l.foldl
        (fun acc c => acc + (if c.chunk_number = cur then blen else AVG_CHUNK_ESTIMATE)) a =
      a + blen * l.countP (fun c => c.chunk_number == cur) +
        AVG_CHUNK_ESTIMATE * l.countP (fun c => ! (c.chunk_number == cur)) := by
  intro l
  induction l with
  | nil => intro a; simp
  | cons c l ih =>
    intro a
    simp only [List.foldl_cons, List.countP_cons]
    rw [ih]
    by_cases h : c.chunk_number = cur
    · simp only [h, if_pos rfl, beq_self_eq_true, Bool.not_true, if_true]
      simp
      ring
    · simp only [if_neg h]
      have hb : (c.chunk_number == cur) = false := by simp [h]
      simp [hb]
      ring

/-- C8: for every sequence of chunk objects (in index order) and positive
minimum part size, the retroactive-multipart batching walk produces parts whose
numbers are contiguous from 1; every part except possibly the last has
accumulated size at least the minimum; every batch is nonempty, is a
server-side copy part exactly when it holds a single chunk (and otherwise a
downloaded-and-concatenated uploaded part), and never accumulated a full
minimum before its last chunk was added; and the concatenation of the parts in
part-number order equals the concatenation of the chunks in index order. -/
theorem C8_batching (m : Nat) (cs : List SChunk) (hm : 0 < m) :
    ((build_multipart_from_chunks m cs).map MPart.part_number =
        List.range' 1 (build_multipart_from_chunks m cs).length) ∧
    (∀ p ∈ (build_multipart_from_chunks m cs).dropLast, m ≤ part_size p) ∧
    (∀ p ∈ build_multipart_from_chunks m cs,
        p.src ≠ [] ∧ (p.kind = PartKind.copy ↔ p.src.length = 1) ∧
        sizes_sum p.src.dropLast < m) ∧
    (((build_multipart_from_chunks m cs).map MPart.src).flatten = cs) ∧
    (join_parts (build_multipart_from_chunks m cs) =
        (cs.map SChunk.content).flatten) := by
  unfold build_multipart_from_chunks
  refine ⟨build_go_numbers m cs [] 0 1, build_go_min_size m cs [] 0 1 rfl, ?_, ?_, ?_⟩
  · intro p hp
    exact ⟨(build_go_kind m cs [] 0 1 p hp).1, (build_go_kind m cs [] 0 1 p hp).2,
      build_go_greedy m cs [] 0 1 rfl hm p hp⟩
  · by_cases hcs : cs = []
    · subst hcs; simp [build_go]
    · simpa using build_go_src_flatten m cs [] 0 1 hcs
  · rw [join_parts_eq]
    by_cases hcs : cs = []
    · subst hcs; simp [build_go]
    · rw [show ((build_go m cs [] 0 1).map MPart.src).flatten = cs by
        simpa using build_go_src_flatten m cs [] 0 1 hcs]

/-- Chunk objects used to witness the batching properties. -/
def c8_chunks : List SChunk :=
  [{ key := 0, content := [1, 2, 3] }, { key := 1, content := [4, 5] },
   { key := 2, content := [6] }]

/-- Witness: the batching properties instantiated at a concrete minimum part
size and chunk sequence. -/
theorem C8_batching_witness :
    ((build_multipart_from_chunks 5 c8_chunks).map MPart.part_number =
        List.range' 1 (build_multipart_from_chunks 5 c8_chunks).length) ∧
    (∀ p ∈ (build_multipart_from_chunks 5 c8_chunks).dropLast, 5 ≤ part_size p) ∧
    (∀ p ∈ build_multipart_from_chunks 5 c8_chunks,
        p.src ≠ [] ∧ (p.kind = PartKind.copy ↔ p.src.length = 1) ∧
        sizes_sum p.src.dropLast < 5) ∧
    (((build_multipart_from_chunks 5 c8_chunks).map MPart.src).flatten = c8_chunks) ∧
    (join_parts (build_multipart_from_chunks 5 c8_chunks) =
        (c8_chunks.map SChunk.content).flatten) :=
  C8_batching 5 c8_chunks (by decide)

/-! Concrete runs refuting the claims the code does not satisfy. -/

/-- A final-chunk delivery of index 2 while index 1 was never received. -/
def req_gap : Request :=
  { user := 1, chunk_number := 2, chunk_start_time := 60, chunk_duration := 30,
    is_final := true, body := [8] }

/-- C1 counterexample: delivering the final chunk with intermediate index 1
missing does not fail with an incomplete-sequence error; the call answers with
the complete response, finalization proceeds and `is_final_uploaded` is set,
even though the gap is still there. -/
theorem C1_counterexample :
    (1 < 2 ∧ 1 ∉ conv_1.received_chunks ∧ st_1.conv = some conv_1) ∧
    (upload_chunk envOK st_1 req_gap).1 = Resp.ok 2 2 true Msg.complete ∧
    ((upload_chunk envOK st_1 req_gap).2.conv.map Conversation.is_final_uploaded) =
      some true ∧
    ((upload_chunk envOK st_1 req_gap).2.conv.map Conversation.received_chunks) =
      some [0, 2] := by decide

/-- Conversation state with twelve one-byte chunks already ingested. -/
def conv_many : Conversation :=
  { recorded_by := 1
    received_chunks := List.range 12
    chunk_count := 12
    total_duration_seconds := 360
    multipart_upload_id := some 0
    multipart_parts := (List.range 12).map (fun i => (i + 1, i + 1))
    chunks_folder_set := true
    final_audio_url := some FINAL_KEY
    is_chunks_complete := false
    is_final_uploaded := false
    has_title := false }

/-- State with twelve one-byte chunk objects persisted. -/
def st_many : SysState :=
  { conv := some conv_many
    chunks := (List.range 12).map
      (fun i => { chunk_number := i, start_time_seconds := (i : Int) * 30,
                  duration_seconds := 30 })
    s3 := { s3_0 with
      next_upload_id := 1, open_uploads := [0], created_uploads := 1
      chunk_objects := (List.range 12).map (fun i => (i, [1])), part_copies := 12 } }

/-- The final delivery of chunk 12 with a one-byte body. -/
def req_many : Request :=
  { user := 1, chunk_number := 12, chunk_start_time := 360, chunk_duration := 30,
    is_final := true, body := [1] }

/-- C2 counterexample: the sum of the persisted chunk sizes is 13 bytes — far
below the 10 MiB threshold, so selection against persisted sizes would demand
the concatenation strategy — yet the code selects the retroactive multipart
strategy, because it estimates every previous chunk at 900000 bytes. -/
theorem C2_counterexample :
    spec_total_bytes (upload_chunk envOK st_many req_many).2.s3
        (sort_chunks (upload_chunk envOK st_many req_many).2.chunks) = 13 ∧
    13 < SIZE_THRESHOLD ∧
    (upload_chunk envOK st_many req_many).2.s3.completed_multiparts = 1 ∧
    (upload_chunk envOK st_many req_many).2.s3.concat_puts = 0 := by decide

/-- An ingest call by user 2 against the session owned by user 1. -/
def req_other_user : Request :=
  { user := 2, chunk_number := 1, chunk_start_time := 30, chunk_duration := 30,
    is_final := false, body := [9] }

/-- C3 counterexample: the session is owned by user 1 but the delivery by
user 2 is accepted — no unauthorized failure — and the session state changes
(the chunk table and received set grow). -/
theorem C3_counterexample :
    (conv_1.recorded_by = 1 ∧ req_other_user.user = 2 ∧ st_1.conv = some conv_1) ∧
    (upload_chunk envOK st_1 req_other_user).1 = Resp.ok 1 2 false Msg.uploaded ∧
    (upload_chunk envOK st_1 req_other_user).2.chunks.length = 2 ∧
    ((upload_chunk envOK st_1 req_other_user).2.conv.map Conversation.received_chunks) =
      some [0, 1] := by decide

/-- A re-delivery of chunk 0 for a session that already received it. -/
def req_dup0 : Request :=
  { user := 1, chunk_number := 0, chunk_start_time := 0, chunk_duration := 30,
    is_final := false, body := [7] }

/-- C4 counterexample: re-delivering index 0 does return the previous result
with the same `total_received` and creates no new chunk object or part, but it
is not side-effect free: a fresh multipart upload is opened (the create counter
goes from 1 to 2), the session's upload handle is replaced by the new id, and
the accumulated parts list is reset. -/
theorem C4_counterexample :
    (upload_chunk envOK st_1 req_dup0).1 = Resp.ok 0 1 false Msg.alreadyReceived ∧
    (upload_chunk envOK st_1 req_dup0).2.s3.created_uploads = 2 ∧
    st_1.s3.created_uploads = 1 ∧
    ((upload_chunk envOK st_1 req_dup0).2.conv.map Conversation.multipart_upload_id) =
      some (some 1) ∧
    conv_1.multipart_upload_id = some 0 ∧
    ((upload_chunk envOK st_1 req_dup0).2.conv.map Conversation.multipart_parts) =
      some [] ∧
    conv_1.multipart_parts = [(1, 1)] := by decide

/-- The session state of `st_1` with the duration high-water mark at 120
(as after chunk 3 was ingested). -/
def st_dur : SysState :=
  { st_1 with conv := some { conv_1 with total_duration_seconds := 120 } }

/-- A (retried) delivery of chunk 1 arriving after later chunks. -/
def req_late1 : Request :=
  { user := 1, chunk_number := 1, chunk_start_time := 30, chunk_duration := 30,
    is_final := false, body := [9] }

/-- C5 counterexample: ingesting chunk 1 after the session's total duration
reached 120 overwrites the total with 60 — the unconditional assignment
`start + duration`, not the high-water mark `max(120, 60) = 120`. -/
theorem C5_counterexample :
    (st_dur.conv.map Conversation.total_duration_seconds) = some 120 ∧
    ((upload_chunk envOK st_dur req_late1).2.conv.map
        Conversation.total_duration_seconds) = some 60 ∧
    (60 : Int) < 120 := by decide

/-- C6 counterexample: `finalize_conversation` — an operation distinct from
the final-chunk branch of ingest — also sets `is_final_uploaded`, from false
to true. -/
theorem C6_counterexample :
    (st_1.conv.map Conversation.is_final_uploaded) = some false ∧
    (finalize_conversation { file_exists := true } st_1 1).1 = Resp.fin true true ∧
    ((finalize_conversation { file_exists := true } st_1 1).2.conv.map
        Conversation.is_final_uploaded) = some true := by decide

/-- The environment in which the chunk-object put fails. -/
def envPutFail : Env := { envOK with put_ok := false }

/-- C9 counterexample: after a storage failure the multipart upload is aborted
at the backend (no longer open), but the session still carries the aborted
upload id in `multipart_upload_id` — a dangling id remains attached. -/
theorem C9_counterexample :
    (upload_chunk envPutFail st_1 req_late1).1 = Resp.err 500 ErrCode.uploadFailed ∧
    (upload_chunk envPutFail st_1 req_late1).2.s3.open_uploads = [] ∧
    ((upload_chunk envPutFail st_1 req_late1).2.conv.map
        Conversation.multipart_upload_id) = some (some 0) := by decide

/-! General theorems about the ingest call. -/

lemma norm_start_eq (req : Request) :
    norm_start req = (req.chunk_number : Int) * 30 := by
  unfold norm_start
  by_cases h : req.chunk_start_time = (req.chunk_number : Int) * 30
  · simp [h]
  · simp [h]

lemma sys_eta (st : SysState) (c : Conversation) (h : st.conv = some c) :
    ({ st with conv := some c } : SysState) = st := by
  obtain ⟨cv, ch, s3⟩ := st
  obtain rfl : cv = some c := h
  rfl

/-- C5 amended: for every successful non-duplicate chunk ingest, the session's
`total_duration_seconds` is overwritten with the ingested chunk's server-derived
`startTimeSeconds + durationSeconds` (that is, `30 * index + duration`)
unconditionally — it is not a running maximum, and so it can decrease when a
lower-indexed chunk arrives after a higher-indexed one. -/
theorem C5_amended (st : SysState) (req : Request) (c : Conversation) (uid : Nat)
    (hc : st.conv = some c)
    (hmp : c.multipart_upload_id = some uid)
    (hnz : req.chunk_number ≠ 0)
    (hbody : req.body ≠ [])
    (hdup : (st.chunks.any fun r => r.chunk_number == req.chunk_number) = false) :
    ∃ c2, (upload_chunk envOK st req).2.conv = some c2 ∧
      c2.total_duration_seconds = (req.chunk_number : Int) * 30 + req.chunk_duration := by
  unfold upload_chunk after_start
  simp only [hc, hbody, hnz, hmp, hdup, envOK, norm_start_eq, if_false,
    ite_false, ite_true, Bool.false_eq_true, if_neg, not_false_iff]
  by_cases hfin : req.is_final
  · simp only [hfin, if_true]
    unfold final_branch finish_finalize
    by_cases htb : compute_total_bytes
        (sort_chunks (st.chunks ++
          [{ chunk_number := req.chunk_number,
             start_time_seconds := (req.chunk_number : Int) * 30,
             duration_seconds := req.chunk_duration }]))
        req.chunk_number req.body.length < SIZE_THRESHOLD
    · simp [htb]
    · simp [htb]
  · simp [hfin]

/-- Witness: the amended C5 statement at the concrete out-of-order re-delivery. -/
theorem C5_amended_witness :
    ∃ c2, (upload_chunk envOK st_dur req_late1).2.conv = some c2 ∧
      c2.total_duration_seconds =
        (req_late1.chunk_number : Int) * 30 + req_late1.chunk_duration :=
  C5_amended st_dur req_late1 { conv_1 with total_duration_seconds := 120 } 0
    (by decide) (by decide) (by decide) (by decide) (by decide)

/-- The chunk row the ingest call persists for a request: the start time is the
server-derived `30 * index`, whatever the client sent. -/
def ingested_rec (req : Request) : ChunkRec :=
  { chunk_number := req.chunk_number
    start_time_seconds := (req.chunk_number : Int) * 30
    duration_seconds := req.chunk_duration }

/-- C1 amended: the final-chunk branch performs no gap check.  A final-chunk
delivery whose storage calls succeed finalizes the session and sets
`is_final_uploaded` even when an intermediate index `g` is missing from the
received set — it does not fail with an incomplete-sequence error, and the gap
is still there afterwards. -/
theorem C1_amended (st : SysState) (req : Request) (c : Conversation) (uid g : Nat)
    (hc : st.conv = some c)
    (hmp : c.multipart_upload_id = some uid)
    (hnz : req.chunk_number ≠ 0)
    (hfin : req.is_final = true)
    (hbody : req.body ≠ [])
    (hdup : (st.chunks.any fun r => r.chunk_number == req.chunk_number) = false)
    (hglt : g < req.chunk_number)
    (hgmem : g ∉ c.received_chunks) :
    ∃ c2 tr,
      (upload_chunk envOK st req).1 = Resp.ok req.chunk_number tr true Msg.complete ∧
      (upload_chunk envOK st req).2.conv = some c2 ∧
      c2.is_final_uploaded = true ∧
      g ∉ c2.received_chunks := by
  have hg2 : g ∉ (if req.chunk_number ∈ c.received_chunks
      then c.received_chunks
      else sort_nats (c.received_chunks ++ [req.chunk_number])) := by
    by_cases hm : req.chunk_number ∈ c.received_chunks
    · simpa [hm] using hgmem
    · simp only [if_neg hm, mem_sort_nats, List.mem_append, List.mem_singleton]
      rintro (h | rfl)
      · exact hgmem h
      · exact absurd hglt (lt_irrefl _)
  unfold upload_chunk after_start
  simp only [hc, hbody, hnz, hmp, hdup, hfin, envOK, norm_start_eq, if_false,
    ite_false, ite_true, Bool.false_eq_true, not_false_iff]
  unfold final_branch finish_finalize
  by_cases htb : compute_total_bytes
      (sort_chunks (st.chunks ++ [ingested_rec req]))
      req.chunk_number req.body.length < SIZE_THRESHOLD
  · simp only [ingested_rec] at htb
    simp [htb]
    exact hg2
  · simp only [ingested_rec] at htb
    simp [htb]
    exact hg2

/-- Witness: the amended C1 statement at the concrete gapped final delivery. -/
theorem C1_amended_witness :
    ∃ c2 tr,
      (upload_chunk envOK st_1 req_gap).1 = Resp.ok req_gap.chunk_number tr true
        Msg.complete ∧
      (upload_chunk envOK st_1 req_gap).2.conv = some c2 ∧
      c2.is_final_uploaded = true ∧
      1 ∉ c2.received_chunks :=
  C1_amended st_1 req_gap conv_1 0 1 (by decide) (by decide) (by decide) (by decide)
    (by decide) (by decide) (by decide) (by decide)

/-- C2 amended: at final-chunk delivery the reassembly strategy is selected
against an *estimated* total, not the sum of persisted sizes: the chunk being
delivered contributes its raw body length and every other chunk row contributes
a flat 900000-byte estimate; the concatenation strategy runs exactly when this
estimate is below the threshold and the retroactive multipart strategy exactly
when it is at or above it. -/
theorem C2_amended (st : SysState) (req : Request) (c : Conversation) (uid : Nat)
    (hc : st.conv = some c)
    (hmp : c.multipart_upload_id = some uid)
    (hnz : req.chunk_number ≠ 0)
    (hfin : req.is_final = true)
    (hbody : req.body ≠ [])
    (hdup : (st.chunks.any fun r => r.chunk_number == req.chunk_number) = false) :
    (∀ (ordered : List ChunkRec) (cur blen : Nat),
        compute_total_bytes ordered cur blen =
          blen * ordered.countP (fun r => r.chunk_number == cur) +
            AVG_CHUNK_ESTIMATE * ordered.countP (fun r => ! (r.chunk_number == cur))) ∧
    (compute_total_bytes (sort_chunks (st.chunks ++ [ingested_rec req]))
        req.chunk_number req.body.length < SIZE_THRESHOLD →
      (upload_chunk envOK st req).2.s3.concat_puts = st.s3.concat_puts + 1 ∧
      (upload_chunk envOK st req).2.s3.completed_multiparts =
        st.s3.completed_multiparts) ∧
    (SIZE_THRESHOLD ≤ compute_total_bytes (sort_chunks (st.chunks ++ [ingested_rec req]))
        req.chunk_number req.body.length →
      (upload_chunk envOK st req).2.s3.completed_multiparts =
        st.s3.completed_multiparts + 1 ∧
      (upload_chunk envOK st req).2.s3.concat_puts = st.s3.concat_puts) := by
  refine ⟨?_, ?_, ?_⟩
  · intro ordered cur blen
    rw [compute_total_bytes, compute_total_bytes_foldl, Nat.zero_add]
  · intro htb
    simp only [ingested_rec] at htb
    unfold upload_chunk after_start
    simp only [hc, hbody, hnz, hmp, hdup, hfin, envOK, norm_start_eq, if_false,
      ite_false, ite_true, Bool.false_eq_true, not_false_iff]
    unfold final_branch finish_finalize
    simp [htb, abort_multipart_upload]
  · intro htb
    have htb2 : ¬ compute_total_bytes
        (sort_chunks (st.chunks ++
          [{ chunk_number := req.chunk_number,
             start_time_seconds := (req.chunk_number : Int) * 30,
             duration_seconds := req.chunk_duration }]))
        req.chunk_number req.body.length < SIZE_THRESHOLD := by
      simp only [ingested_rec] at htb
      omega
    unfold upload_chunk after_start
    simp only [hc, hbody, hnz, hmp, hdup, hfin, envOK, norm_start_eq, if_false,
      ite_false, ite_true, Bool.false_eq_true, not_false_iff]
    unfold final_branch finish_finalize
    simp [htb2, abort_multipart_upload]

/-- Witness: the amended C2 statement at the thirteen-one-byte-chunk state,
where the estimate selects the multipart strategy. -/
theorem C2_amended_witness :
    (∀ (ordered : List ChunkRec) (cur blen : Nat),
        compute_total_bytes ordered cur blen =
          blen * ordered.countP (fun r => r.chunk_number == cur) +
            AVG_CHUNK_ESTIMATE * ordered.countP (fun r => ! (r.chunk_number == cur))) ∧
    (compute_total_bytes (sort_chunks (st_many.chunks ++ [ingested_rec req_many]))
        req_many.chunk_number req_many.body.length < SIZE_THRESHOLD →
      (upload_chunk envOK st_many req_many).2.s3.concat_puts =
        st_many.s3.concat_puts + 1 ∧
      (upload_chunk envOK st_many req_many).2.s3.completed_multiparts =
        st_many.s3.completed_multiparts) ∧
    (SIZE_THRESHOLD ≤
        compute_total_bytes (sort_chunks (st_many.chunks ++ [ingested_rec req_many]))
          req_many.chunk_number req_many.body.length →
      (upload_chunk envOK st_many req_many).2.s3.completed_multiparts =
        st_many.s3.completed_multiparts + 1 ∧
      (upload_chunk envOK st_many req_many).2.s3.concat_puts =
        st_many.s3.concat_puts) :=
  C2_amended st_many req_many conv_many 0 (by decide) (by decide) (by decide)
    (by decide) (by decide) (by decide)

/-- C3 amended: ingest performs no ownership check.  A delivery by an
authenticated user different from the session's owner is accepted and mutates
the session: the chunk row is persisted, the index joins the received set, and
the conversation's owner stays what it was — no unauthorized error exists on
this path. -/
theorem C3_amended (st : SysState) (req : Request) (c : Conversation) (uid : Nat)
    (hc : st.conv = some c)
    (howner : c.recorded_by ≠ req.user)
    (hmp : c.multipart_upload_id = some uid)
    (hnz : req.chunk_number ≠ 0)
    (hnf : req.is_final = false)
    (hbody : req.body ≠ [])
    (hdup : (st.chunks.any fun r => r.chunk_number == req.chunk_number) = false) :
    ∃ tr,
      (upload_chunk envOK st req).1 = Resp.ok req.chunk_number tr false Msg.uploaded ∧
      (upload_chunk envOK st req).2.chunks = st.chunks ++ [ingested_rec req] ∧
      ∃ c2, (upload_chunk envOK st req).2.conv = some c2 ∧
        c2.recorded_by = c.recorded_by ∧
        req.chunk_number ∈ c2.received_chunks := by
  have hmem : req.chunk_number ∈ (if req.chunk_number ∈ c.received_chunks
      then c.received_chunks
      else sort_nats (c.received_chunks ++ [req.chunk_number])) := by
    by_cases hm : req.chunk_number ∈ c.received_chunks
    · simp [hm]
    · simp [if_neg hm, mem_sort_nats]
  unfold upload_chunk after_start
  simp only [hc, hbody, hnz, hmp, hdup, hnf, envOK, norm_start_eq, if_false,
    ite_false, ite_true, Bool.false_eq_true, not_false_iff]
  simp [ingested_rec]
  exact hmem

/-- Witness: the amended C3 statement at the concrete cross-user delivery. -/
theorem C3_amended_witness :
    ∃ tr,
      (upload_chunk envOK st_1 req_other_user).1 =
        Resp.ok req_other_user.chunk_number tr false Msg.uploaded ∧
      (upload_chunk envOK st_1 req_other_user).2.chunks =
        st_1.chunks ++ [ingested_rec req_other_user] ∧
      ∃ c2, (upload_chunk envOK st_1 req_other_user).2.conv = some c2 ∧
        c2.recorded_by = conv_1.recorded_by ∧
        req_other_user.chunk_number ∈ c2.received_chunks :=
  C3_amended st_1 req_other_user conv_1 0 (by decide) (by decide) (by decide)
    (by decide) (by decide) (by decide) (by decide)

/-- C4 amended: ingest is idempotent per `(sessionId, index)` only for
`index > 0`: such a re-delivery returns the previously computed result with
identical `totalReceived` and leaves the entire system state unchanged.  A
re-delivery of index 0 also returns the prior result with identical
`totalReceived` and creates no new chunk object and no new part, but it is not
side-effect free: before the duplicate is detected, a fresh multipart upload is
opened, the session's upload handle is replaced by the new id and the
accumulated parts list is reset. -/
theorem C4_amended (st : SysState) (req : Request) (c : Conversation)
    (hc : st.conv = some c)
    (hbody : req.body ≠ [])
    (hdup : (st.chunks.any fun r => r.chunk_number == req.chunk_number) = true) :
    (req.chunk_number ≠ 0 →
      (upload_chunk envOK st req).1 =
        Resp.ok req.chunk_number c.received_chunks.length c.is_chunks_complete
          Msg.alreadyReceived ∧
      (upload_chunk envOK st req).2 = st) ∧
    (req.chunk_number = 0 →
      (upload_chunk envOK st req).1 =
        Resp.ok 0 c.received_chunks.length c.is_chunks_complete Msg.alreadyReceived ∧
      (upload_chunk envOK st req).2.chunks = st.chunks ∧
      (upload_chunk envOK st req).2.s3.chunk_objects = st.s3.chunk_objects ∧
      (upload_chunk envOK st req).2.s3.part_copies = st.s3.part_copies ∧
      (upload_chunk envOK st req).2.s3.created_uploads = st.s3.created_uploads + 1 ∧
      (upload_chunk envOK st req).2.conv = some { c with
        multipart_upload_id := some st.s3.next_upload_id
        final_audio_url := some FINAL_KEY
        multipart_parts := [] }) := by
  have hdup2 := hdup
  simp only [List.any_eq_true, beq_iff_eq] at hdup2
  constructor
  · intro hnz
    unfold upload_chunk after_start
    simp [hc, hbody, hnz, envOK, hdup2, sys_eta st c hc]
  · intro hz
    simp only [hz] at hdup2
    unfold upload_chunk after_start
    simp [hc, hbody, hz, envOK, hdup2]

/-- Witness: the amended C4 statement at the concrete chunk-0 re-delivery. -/
theorem C4_amended_witness :
    (req_dup0.chunk_number ≠ 0 →
      (upload_chunk envOK st_1 req_dup0).1 =
        Resp.ok req_dup0.chunk_number conv_1.received_chunks.length
          conv_1.is_chunks_complete Msg.alreadyReceived ∧
      (upload_chunk envOK st_1 req_dup0).2 = st_1) ∧
    (req_dup0.chunk_number = 0 →
      (upload_chunk envOK st_1 req_dup0).1 =
        Resp.ok 0 conv_1.received_chunks.length conv_1.is_chunks_complete
          Msg.alreadyReceived ∧
      (upload_chunk envOK st_1 req_dup0).2.chunks = st_1.chunks ∧
      (upload_chunk envOK st_1 req_dup0).2.s3.chunk_objects = st_1.s3.chunk_objects ∧
      (upload_chunk envOK st_1 req_dup0).2.s3.part_copies = st_1.s3.part_copies ∧
      (upload_chunk envOK st_1 req_dup0).2.s3.created_uploads =
        st_1.s3.created_uploads + 1 ∧
      (upload_chunk envOK st_1 req_dup0).2.conv = some { conv_1 with
        multipart_upload_id := some st_1.s3.next_upload_id
        final_audio_url := some FINAL_KEY
        multipart_parts := [] }) :=
  C4_amended st_1 req_dup0 conv_1 (by decide) (by decide) (by decide)

/-- C9 amended: on a storage failure while persisting the chunk object or
issuing the part copy, the call fails with the upload-failed error and the
multipart upload is aborted at the backend before returning — but the aborted
upload id is not cleared from the session row: the session still carries
`multipart_upload_id = uid` while `uid` is no longer open. -/
theorem C9_amended (env : Env) (st : SysState) (req : Request) (c : Conversation)
    (uid : Nat)
    (hc : st.conv = some c)
    (hmp : c.multipart_upload_id = some uid)
    (hnz : req.chunk_number ≠ 0)
    (hbody : req.body ≠ [])
    (hdup : (st.chunks.any fun r => r.chunk_number == req.chunk_number) = false)
    (hfail : env.put_ok = false ∨ env.copy_ok = false) :
    (upload_chunk env st req).1 = Resp.err 500 ErrCode.uploadFailed ∧
    ∃ c2, (upload_chunk env st req).2.conv = some c2 ∧
      c2.multipart_upload_id = some uid ∧
      uid ∉ (upload_chunk env st req).2.s3.open_uploads := by
  by_cases hput : env.put_ok
  · have hcopy : env.copy_ok = false := by
      rcases hfail with h | h
      · rw [hput] at h; exact absurd h (by simp)
      · exact h
    unfold upload_chunk after_start
    simp only [hc, hbody, hnz, hmp, hdup, hput, hcopy, if_false, ite_false,
      ite_true, Bool.false_eq_true, not_false_iff, if_true]
    refine ⟨by trivial, c, rfl, hmp, ?_⟩
    simp [abort_multipart_upload, List.mem_filter]
  · have hput2 : env.put_ok = false := by
      cases h2 : env.put_ok
      · rfl
      · exact absurd h2 hput
    unfold upload_chunk after_start
    simp only [hc, hbody, hnz, hmp, hdup, hput2, if_false, ite_false,
      ite_true, Bool.false_eq_true, not_false_iff, if_true]
    refine ⟨by trivial, c, rfl, hmp, ?_⟩
    simp [abort_multipart_upload, List.mem_filter]

/-- Witness: the amended C9 statement at the concrete failing put. -/
theorem C9_amended_witness :
    (upload_chunk envPutFail st_1 req_late1).1 = Resp.err 500 ErrCode.uploadFailed ∧
    ∃ c2, (upload_chunk envPutFail st_1 req_late1).2.conv = some c2 ∧
      c2.multipart_upload_id = some 0 ∧
      0 ∉ (upload_chunk envPutFail st_1 req_late1).2.s3.open_uploads :=
  C9_amended envPutFail st_1 req_late1 conv_1 0 (by decide) (by decide) (by decide)
    (by decide) (by decide) (Or.inl (by decide))

/-- C10: for every accepted non-duplicate chunk, the persisted chunk row's
`start_time_seconds` equals `30 * chunk_number`, whatever start time the client
supplied, and the session's `total_duration_seconds` is computed from this
server-derived value plus the chunk's duration. -/
theorem C10_start_time (st : SysState) (req : Request) (c : Conversation) (uid : Nat)
    (hc : st.conv = some c)
    (hmp : c.multipart_upload_id = some uid)
    (hnz : req.chunk_number ≠ 0)
    (hbody : req.body ≠ [])
    (hdup : (st.chunks.any fun r => r.chunk_number == req.chunk_number) = false) :
    (upload_chunk envOK st req).2.chunks = st.chunks ++ [ingested_rec req] ∧
    (ingested_rec req).start_time_seconds = (req.chunk_number : Int) * 30 ∧
    ∃ c2, (upload_chunk envOK st req).2.conv = some c2 ∧
      c2.total_duration_seconds =
        (ingested_rec req).start_time_seconds + req.chunk_duration := by
  refine ⟨?_, rfl, ?_⟩
  · unfold upload_chunk after_start
    simp only [hc, hbody, hnz, hmp, hdup, envOK, norm_start_eq, if_false,
      ite_false, ite_true, Bool.false_eq_true, not_false_iff]
    by_cases hfin : req.is_final
    · simp only [hfin, if_true]
      unfold final_branch finish_finalize
      by_cases htb : compute_total_bytes
          (sort_chunks (st.chunks ++ [ingested_rec req]))
          req.chunk_number req.body.length < SIZE_THRESHOLD
      · simp only [ingested_rec] at htb
        simp [htb, ingested_rec]
      · simp only [ingested_rec] at htb
        simp [htb, ingested_rec]
    · simp [hfin, ingested_rec]
  · unfold upload_chunk after_start
    simp only [hc, hbody, hnz, hmp, hdup, envOK, norm_start_eq, if_false,
      ite_false, ite_true, Bool.false_eq_true, not_false_iff]
    by_cases hfin : req.is_final
    · simp only [hfin, if_true]
      unfold final_branch finish_finalize
      by_cases htb : compute_total_bytes
          (sort_chunks (st.chunks ++ [ingested_rec req]))
          req.chunk_number req.body.length < SIZE_THRESHOLD
      · simp only [ingested_rec] at htb
        simp [htb, ingested_rec]
      · simp only [ingested_rec] at htb
        simp [htb, ingested_rec]
    · simp [hfin, ingested_rec]

/-- A delivery whose client start time (999) disagrees with `30 * index`. -/
def req_skew : Request :=
  { user := 1, chunk_number := 1, chunk_start_time := 999, chunk_duration := 30,
    is_final := false, body := [5] }

/-- Witness: C10 at a delivery whose client start time disagrees with
`30 * index`; the persisted row still carries `30 * 1 = 30`. -/
theorem C10_start_time_witness :
    ((upload_chunk envOK st_1 req_skew).2.chunks =
        st_1.chunks ++ [ingested_rec req_skew] ∧
      (ingested_rec req_skew).start_time_seconds = (req_skew.chunk_number : Int) * 30 ∧
      ∃ c2, (upload_chunk envOK st_1 req_skew).2.conv = some c2 ∧
        c2.total_duration_seconds =
          (ingested_rec req_skew).start_time_seconds + req_skew.chunk_duration) ∧
    req_skew.chunk_start_time ≠ (req_skew.chunk_number : Int) * 30 :=
  ⟨C10_start_time st_1 req_skew conv_1 0 (by decide) (by decide) (by decide)
    (by decide) (by decide), by decide⟩

lemma final_branch_keeps_flag (env : Env) (st : SysState) (req : Request)
    (conv : Conversation) (uid : Nat) (rc : List Nat) (c : Conversation)
    (hst : st.conv = some c) (hc : c.is_final_uploaded = true) :
    ∃ c2, (final_branch env st req conv uid rc).2.conv = some c2 ∧
      c2.is_final_uploaded = true := by
  unfold final_branch finish_finalize
  by_cases h1 : conv.multipart_upload_id.isSome <;>
  by_cases h2 : compute_total_bytes (sort_chunks st.chunks) req.chunk_number
      req.body.length < SIZE_THRESHOLD <;>
  cases h3 : env.concat_ok <;>
  cases h4 : env.mp_ok <;>
  simp [h1, h2, h3, h4, abort_multipart_upload, hst, hc]

lemma after_start_keeps_flag (env : Env) (st : SysState) (req : Request)
    (conv : Conversation) (cst : Int)
    (hst : st.conv = some conv) (hc : conv.is_final_uploaded = true) :
    ∃ c2, (after_start env st req conv cst).2.conv = some c2 ∧
      c2.is_final_uploaded = true := by
  unfold after_start
  cases h1 : (st.chunks.any fun r => r.chunk_number == req.chunk_number)
  case true => simp [h1, hst, hc]
  case false =>
    cases hmp : conv.multipart_upload_id
    case none => simp [h1, hmp, hst, hc]
    case some uid =>
      cases h2 : env.put_ok
      case false => simp [h1, hmp, h2, hst, hc]
      case true =>
        cases h3 : env.copy_ok
        case false => simp [h1, hmp, h2, h3, hst, hc]
        case true =>
          cases h4 : req.is_final
          case false => simp [h1, hmp, h2, h3, h4, hc]
          case true =>
            simp only [h1, hmp, h2, h3, h4, Bool.false_eq_true, if_false,
              ite_false, if_true, ite_true]
            exact final_branch_keeps_flag env _ req _ uid _ _ rfl hc

/-- C6 amended: `is_final_uploaded` is monotonic — neither the ingest call
nor the finalize endpoint ever resets it once true — but it is set to true by
*two* paths of this subsystem, not one: the final-chunk branch of ingest and
the `finalize_conversation` endpoint (which sets it whenever the owner matches,
a final audio URL is recorded and the object exists). -/
theorem C6_amended :
    (∀ (env : Env) (st : SysState) (req : Request) (c : Conversation),
        st.conv = some c → c.is_final_uploaded = true →
        ∃ c2, (upload_chunk env st req).2.conv = some c2 ∧
          c2.is_final_uploaded = true) ∧
    (∀ (fenv : FinalizeEnv) (st : SysState) (u : Nat) (c : Conversation),
        st.conv = some c → c.is_final_uploaded = true →
        ∃ c2, (finalize_conversation fenv st u).2.conv = some c2 ∧
          c2.is_final_uploaded = true) ∧
    (∀ (fenv : FinalizeEnv) (st : SysState) (u : Nat) (c : Conversation) (k : Nat),
        st.conv = some c → c.recorded_by = u → c.final_audio_url = some k →
        fenv.file_exists = true →
        (finalize_conversation fenv st u).1 = Resp.fin true true ∧
        (finalize_conversation fenv st u).2.conv =
          some { c with is_final_uploaded := true, has_title := true }) := by
  refine ⟨?_, ?_, ?_⟩
  · intro env st req c hc hflag
    unfold upload_chunk
    by_cases hb : req.body = []
    · simp [hb, hc, hflag]
    · simp only [hb, if_false, ite_false, hc]
      by_cases hz : req.chunk_number = 0
      · simp only [hz, ite_true, eq_self_iff_true]
        cases hs : env.start_ok
        · simp [hs, hc, hflag]
        · simp only [hs, if_true, ite_true]
          exact after_start_keeps_flag env _ req _ _ rfl hflag
      · simp only [hz, if_false, ite_false]
        exact after_start_keeps_flag env _ req _ _ rfl hflag
  · intro fenv st u c hc hflag
    unfold finalize_conversation
    cases hown : decide (c.recorded_by = u)
    case false =>
      have hne : ¬ c.recorded_by = u := of_decide_eq_false hown
      simp [hc, hne, hflag]
    case true =>
      have heq : c.recorded_by = u := of_decide_eq_true hown
      cases hurl : c.final_audio_url
      case none => simp [hc, heq, hurl, hflag]
      case some k =>
        cases hfe : fenv.file_exists
        case false => simp [hc, heq, hurl, hfe, hflag]
        case true => simp [hc, heq, hurl, hfe, hflag]
  · intro fenv st u c k hc hown hurl hfe
    unfold finalize_conversation
    simp [hc, hown, hurl, hfe]

/-- State of `st_1` whose conversation already has the final flag set. -/
def st_fin : SysState :=
  { st_1 with conv := some { conv_1 with is_final_uploaded := true } }

/-- Witness: the amended C6 statement at concrete states — ingesting into an
already-finalized session keeps the flag; finalizing keeps it; and the
finalize endpoint sets it on `st_1`. -/
theorem C6_amended_witness :
    (∃ c2, (upload_chunk envOK st_fin req_late1).2.conv = some c2 ∧
        c2.is_final_uploaded = true) ∧
    (∃ c2, (finalize_conversation { file_exists := true } st_fin 1).2.conv =
        some c2 ∧ c2.is_final_uploaded = true) ∧
    ((finalize_conversation { file_exists := true } st_1 1).1 =
        Resp.fin true true ∧
      (finalize_conversation { file_exists := true } st_1 1).2.conv =
        some { conv_1 with is_final_uploaded := true, has_title := true }) :=
  ⟨C6_amended.1 envOK st_fin req_late1
      { conv_1 with is_final_uploaded := true } (by decide) (by decide),
    C6_amended.2.1 { file_exists := true } st_fin 1
      { conv_1 with is_final_uploaded := true } (by decide) (by decide),
    C6_amended.2.2 { file_exists := true } st_1 1 conv_1 FINAL_KEY
      (by decide) (by decide) (by decide) (by decide)⟩

lemma concatenate_abort (s3 : S3) (uid : Nat) (l : List ChunkRec) :
    concatenate_chunks (abort_multipart_upload s3 uid) l =
      concatenate_chunks s3 l := rfl

lemma chunk_objects_abort (s3 : S3) (uid : Nat) (l : List ChunkRec) :
    chunk_objects_in_order (abort_multipart_upload s3 uid) l =
      chunk_objects_in_order s3 l := rfl

/-- C7: the Reassembly Orchestrator selects the strategy against the computed
total with an inclusive-high threshold: strictly below `SIZE_THRESHOLD` the
chunks are fetched in index order, concatenated and stored by a single PUT;
at or above the threshold — including exactly equal — a retroactive multipart
upload is completed instead.  The chunk rows are processed sorted by index
(a permutation of the table in ascending `chunk_number` order). -/
theorem C7_threshold (st : SysState) (req : Request) (conv : Conversation)
    (uid : Nat) (rc : List Nat) :
    (compute_total_bytes (sort_chunks st.chunks) req.chunk_number req.body.length <
        SIZE_THRESHOLD →
      (final_branch envOK st req conv uid rc).2.s3.concat_puts =
        st.s3.concat_puts + 1 ∧
      (final_branch envOK st req conv uid rc).2.s3.completed_multiparts =
        st.s3.completed_multiparts ∧
      (final_branch envOK st req conv uid rc).2.s3.final_object =
        some (concatenate_chunks st.s3 (sort_chunks st.chunks))) ∧
    (SIZE_THRESHOLD ≤
        compute_total_bytes (sort_chunks st.chunks) req.chunk_number req.body.length →
      (final_branch envOK st req conv uid rc).2.s3.completed_multiparts =
        st.s3.completed_multiparts + 1 ∧
      (final_branch envOK st req conv uid rc).2.s3.concat_puts =
        st.s3.concat_puts ∧
      (final_branch envOK st req conv uid rc).2.s3.final_object =
        some (join_parts (build_multipart_from_chunks MIN_PART_SIZE
          (chunk_objects_in_order st.s3 (sort_chunks st.chunks))))) ∧
    (compute_total_bytes (sort_chunks st.chunks) req.chunk_number req.body.length =
        SIZE_THRESHOLD →
      (final_branch envOK st req conv uid rc).2.s3.completed_multiparts =
        st.s3.completed_multiparts + 1) ∧
    sorted_by_index (sort_chunks st.chunks) ∧
    List.Perm (sort_chunks st.chunks) st.chunks := by
  refine ⟨?_, ?_, ?_, sort_chunks_sorted st.chunks, sort_chunks_perm st.chunks⟩
  · intro htb
    unfold final_branch finish_finalize
    by_cases h1 : conv.multipart_upload_id.isSome
    · simp [h1, htb, abort_multipart_upload, envOK]
      rfl
    · simp [h1, htb, envOK]
  · intro htb
    have htb2 : ¬ compute_total_bytes (sort_chunks st.chunks) req.chunk_number
        req.body.length < SIZE_THRESHOLD := by omega
    unfold final_branch finish_finalize
    by_cases h1 : conv.multipart_upload_id.isSome
    · simp [h1, htb2, abort_multipart_upload, envOK]
      rfl
    · simp [h1, htb2, envOK]
  · intro htb
    have htb2 : ¬ compute_total_bytes (sort_chunks st.chunks) req.chunk_number
        req.body.length < SIZE_THRESHOLD := by omega
    unfold final_branch finish_finalize
    by_cases h1 : conv.multipart_upload_id.isSome
    · simp [h1, htb2, abort_multipart_upload, envOK]
    · simp [h1, htb2, envOK]

/-- A final delivery whose body has exactly threshold size. -/
def req_eq : Request :=
  { user := 1, chunk_number := 12, chunk_start_time := 360, chunk_duration := 30,
    is_final := true, body := List.replicate SIZE_THRESHOLD 0 }

/-- A state whose only chunk row is the currently delivered one, so the
computed total equals the body length exactly. -/
def st_eq : SysState :=
  { conv := some conv_many
    chunks := [{ chunk_number := 12, start_time_seconds := 360, duration_seconds := 30 }]
    s3 := st_many.s3 }

/-- Witness: the threshold behaviour at three concrete finalizations — one
strictly below the threshold (concatenation), one strictly above (multipart),
and one whose computed total equals the threshold exactly (multipart:
inclusive on the high side). -/
theorem C7_threshold_witness :
    ((final_branch envOK st_1 req_late1 conv_1 0 [0]).2.s3.concat_puts =
        st_1.s3.concat_puts + 1 ∧
      (final_branch envOK st_1 req_late1 conv_1 0 [0]).2.s3.completed_multiparts =
        st_1.s3.completed_multiparts ∧
      (final_branch envOK st_1 req_late1 conv_1 0 [0]).2.s3.final_object =
        some (concatenate_chunks st_1.s3 (sort_chunks st_1.chunks))) ∧
    ((final_branch envOK st_many req_many conv_many 0
        (List.range 12)).2.s3.completed_multiparts =
        st_many.s3.completed_multiparts + 1 ∧
      (final_branch envOK st_many req_many conv_many 0
        (List.range 12)).2.s3.concat_puts = st_many.s3.concat_puts ∧
      (final_branch envOK st_many req_many conv_many 0
        (List.range 12)).2.s3.final_object =
        some (join_parts (build_multipart_from_chunks MIN_PART_SIZE
          (chunk_objects_in_order st_many.s3 (sort_chunks st_many.chunks))))) ∧
    ((final_branch envOK st_eq req_eq conv_many 0
        (List.range 12)).2.s3.completed_multiparts =
        st_eq.s3.completed_multiparts + 1) :=
  ⟨(C7_threshold st_1 req_late1 conv_1 0 [0]).1 (by decide),
   (C7_threshold st_many req_many conv_many 0 (List.range 12)).2.1 (by decide),
   (C7_threshold st_eq req_eq conv_many 0 (List.range 12)).2.2.1 (by
      simp [st_eq, req_eq, compute_total_bytes, sort_chunks, insert_chunk])⟩

end StreamingTranscriber
